import Mathlib

/-!
Verification of the generic database-register framework of `sio2sio2/fondos`
(`src/fondos/utils/backend/{errors,connect,model}.py`), as a shallow embedding.

Conventions of the embedding:
* Python module-level state becomes explicit Lean structures; methods become
  functions from state to state (paired with a result or an error).
* Python exceptions become explicit error values threaded through `Except`
  or returned as `Option` error components.
* Cursor and connection objects are represented by `Nat` identifiers handed
  out by a counter, so that "a cursor was acquired from the connection" is
  observable in the state.
-/

namespace Fondos

/-! ## `utils/backend/errors.py`

The module defines a closed hierarchy of exception classes.  Only the class
*names* matter for the translation performed by `_manage_cursor`
(`vars(errors).get(type(e).__name__, errors.NotStandardError)`), so the
taxonomy is embedded as an enumeration together with its name map. -/

inductive DBKind where
  | Error
  | InterfaceError
  | DatabaseError
  | InternalError
  | OperationalError
  | ProgrammingError
  | IntegrityError
  | DataError
  | NotSupportedError
  | NotStandardError
  | TransactionError
  deriving DecidableEq, Repr

/-- The class name of each taxonomy member, as bound in the module namespace
`vars(errors)`. -/
def DBKind.className : DBKind → String
  | .Error => "Error"
  | .InterfaceError => "InterfaceError"
  | .DatabaseError => "DatabaseError"
  | .InternalError => "InternalError"
  | .OperationalError => "OperationalError"
  | .ProgrammingError => "ProgrammingError"
  | .IntegrityError => "IntegrityError"
  | .DataError => "DataError"
  | .NotSupportedError => "NotSupportedError"
  | .NotStandardError => "NotStandardError"
  | .TransactionError => "TransactionError"

/-- The classes defined in `errors.py`, in definition order (the keys of
`vars(errors)` that are exception classes). -/
def taxonomy : List DBKind :=
  [.Error, .InterfaceError, .DatabaseError, .InternalError, .OperationalError,
   .ProgrammingError, .IntegrityError, .DataError, .NotSupportedError,
   .NotStandardError, .TransactionError]

/-- `vars(errors).get(name, errors.NotStandardError)`: the taxonomy member
whose class name is `name`, defaulting to `NotStandardError`. -/
def lookupTax (name : String) : DBKind :=
  (taxonomy.find? (fun k => k.className = name)).getD .NotStandardError

/-! ## `utils/backend/connect.py`: `_manage_cursor`

A native driver exception carries its class name and (opaquely) its
traceback.  The exception re-raised at the boundary
(`e = vars(errors).get(type(e).__name__, errors.NotStandardError)(e);
e.__cause__ = None; raise e.with_traceback(tb)`) carries a taxonomy kind,
an explicit `__cause__` and the traceback it was raised with. -/

structure NativeExc where
  name : String
  tb : Nat
  deriving DecidableEq, Repr

structure TransExc where
  kind : DBKind
  cause : Option NativeExc
  tb : Option Nat
  deriving DecidableEq, Repr

/-- The connector state relevant to cursor management:
`_transaction` counter, the `_cursor` stack (`append`/`pop` at the end),
a counter modelling which cursor id `connection.cursor()` hands out next,
and the list of cursors that have been closed. -/
structure CConn where
  transaction : Int
  cursors : List Nat
  nextCursor : Nat
  closedCursors : List Nat
  deriving DecidableEq, Repr

/-- `ConnectorWithCursor.session_opened`. -/
def session_opened (db : CConn) : Bool :=
  db.transaction > 0

/-- Outcome of the body executed under `_manage_cursor`: it either returns a
value or raises a native exception of the backend driver
(`db.BACKEND.Error`). -/
inductive BodyOutcome (α : Type) where
  | ok (a : α)
  | nativeErr (e : NativeExc)

/-- `_manage_cursor(db)` driving a body to completion:

* if no session is open, raise `TransactionError` before touching the
  connection;
* otherwise acquire a fresh cursor from the connection and push it;
* a native error raised by the body is translated by class name, its
  `__cause__` suppressed, and re-raised with the original traceback;
* the `finally` clause pops the cursor and closes it on every path. -/
def manage_cursor (db : CConn) {α : Type} (body : BodyOutcome α) :
    CConn × Except TransExc α :=
  if ¬ session_opened db then
    (db, .error ⟨.TransactionError, none, none⟩)
  else
    let cur := db.nextCursor
    let dbIn : CConn :=
      { db with cursors := db.cursors ++ [cur], nextCursor := db.nextCursor + 1 }
    let popClose : CConn → CConn := fun d =>
      { d with cursors := d.cursors.dropLast,
               closedCursors := d.closedCursors ++ [cur] }
    match body with
    | .ok a => (popClose dbIn, .ok a)
    | .nativeErr e =>
        (popClose dbIn, .error ⟨lookupTax e.name, none, some e.tb⟩)

/-! ## `utils/backend/connect.py`: `_Transaction`

State relevant to the transaction context: the `_transaction` counter, the
number of `connection.commit()` / `connection.rollback()` calls performed,
the contents of the `_buffer` `StringIO` (always created by `_StatementLog`
in the connector's `__init__`), whether a logger sink was configured
(`dump` argument; `self.logger`), and the texts flushed to the sink. -/

structure TxConn where
  transaction : Int
  commits : Nat
  rollbacks : Nat
  buffer : String
  hasLogger : Bool
  sink : List String
  deriving DecidableEq, Repr

/-- Truth value of `if self.db._buffer:`.  `_buffer` is always an
`io.StringIO` instance (created unconditionally in `_StatementLog.__init__`,
which the connector's `__init__` always runs); `StringIO` defines neither
a boolean conversion nor a length, so the object is truthy regardless of its
contents. -/
def stringIOTruthy (_buf : String) : Bool :=
  true

/-- Exception escaping `_Transaction.__exit__` itself. -/
inductive ExitExc where
  /-- `TypeError: NoneType object is not callable`, from evaluating
  `self.db.logger(...)` when no logger sink was configured. -/
  | typeErrorNoneNotCallable
  deriving DecidableEq, Repr

/-- `_Transaction.__enter__`. -/
def txEnter (db : TxConn) : TxConn :=
  { db with transaction := db.transaction + 1 }

/-- `_Transaction.__exit__(exc, value, tb)`; `exc` is whether an exception
is pending.  Returns the new state and the exception raised by `__exit__`
itself, if any (the pending exception always continues to propagate, since
`__exit__` returns `False`). -/
def txExit (db : TxConn) (exc : Bool) : TxConn × Option ExitExc :=
  let d0 : TxConn := { db with transaction := db.transaction - 1 }
  if d0.transaction = 0 then
    let step : Except (TxConn × ExitExc) TxConn :=
      if ¬ exc then
        let d1 : TxConn := { d0 with commits := d0.commits + 1 }
        if stringIOTruthy d1.buffer then
          if d1.hasLogger then
            .ok { d1 with sink := d1.sink ++ [d1.buffer] }
          else
            .error (d1, .typeErrorNoneNotCallable)
        else .ok d1
      else
        .ok { d0 with rollbacks := d0.rollbacks + 1 }
    match step with
    | .error (d, e) => (d, some e)
    | .ok d =>
        let d := if stringIOTruthy d.buffer then { d with buffer := "" } else d
        (d, none)
  else
    (d0, none)

/-- A step of a (possibly nested) use of `with db.session`. -/
inductive TxOp where
  | enter
  | exit (exc : Bool)
  deriving DecidableEq, Repr

/-- Run a sequence of scope entries/exits, tracking the connector state. -/
def txRun (ops : List TxOp) (db : TxConn) : TxConn :=
  match ops with
  | [] => db
  | .enter :: rest => txRun rest (txEnter db)
  | .exit exc :: rest => txRun rest (txExit db exc).1

def countEnters (ops : List TxOp) : Nat :=
  (ops.filter (fun o => o = .enter)).length

def countExits (ops : List TxOp) : Nat :=
  (ops.filter (fun o => o ≠ .enter)).length

/-! ## `utils/backend/connect.py`: `ConnectorWithCursor.attach`

Classes of the object model carry a name and, once bound, the identifier of
the connector stored in their `_db` class attribute.  The connector's
attribute namespace is an association list (non-class attributes -- methods,
properties and the like -- are entries carrying no class); its `_attached`
set is kept as a list in insertion order. -/

structure ModelClass where
  name : String
  boundTo : Option Nat
  deriving DecidableEq, Repr

structure AConn where
  connId : Nat
  attrs : List (String × Option ModelClass)
  attachedSet : List ModelClass
  deriving DecidableEq, Repr

/-- One iteration of the loop in `attach`:
`class_ = type(class_)(class_.__name__, (class_,), {"_db": self})` creates
the connector-bound subclass; it is added to `self._attached`; then, if the
connector already has an attribute of that name, an `AttributeError` is
raised (reported as the colliding name), else the class is set as an
attribute. -/
def attachOne (db : AConn) (c : ModelClass) : AConn × Option String :=
  let bound : ModelClass := { name := c.name, boundTo := some db.connId }
  let db1 : AConn := { db with attachedSet := db.attachedSet ++ [bound] }
  if db1.attrs.any (fun p => p.1 = c.name) then
    (db1, some c.name)
  else
    ({ db1 with attrs := db1.attrs ++ [(c.name, some bound)] }, none)

/-- `ConnectorWithCursor.attach(classes)`: iterate until done or until an
`AttributeError` aborts the loop. -/
def attach (db : AConn) : List ModelClass → AConn × Option String
  | [] => (db, none)
  | c :: rest =>
    match attachOne db c with
    | (db1, some n) => (db1, some n)
    | (db1, none) => attach db1 rest

/-! ## `utils/backend/model.py`

Values handled by the register framework: Python `None`, integers, strings
(quote values are floats in the application, but no claim depends on them;
any driver value outside these cases behaves uniformly). -/

inductive PyVal where
  | none
  | int (n : Int)
  | str (s : String)
  deriving DecidableEq, Repr

/-- The value returned by `_set_id` (and hence by the wrapped `insert`):
the single key value, or the tuple of key values for a composite (or empty)
primary key. -/
inductive KeyRet where
  | single (v : PyVal)
  | tup (vs : List PyVal)
  deriving DecidableEq, Repr

/-- Instance `__dict__` restricted to the private field slots: `_name ↦ v`
(keys kept without the underscore). -/
abbrev Slots := List (String × PyVal)

/-- `getattr(self, "_" + name)` on the slots. -/
def lookupSlot (slots : Slots) (name : String) : Option PyVal :=
  (slots.find? (fun p => p.1 = name)).map Prod.snd

/-- `setattr(self, "_" + name, v)`: overwrite the existing slot or append. -/
def setSlot (slots : Slots) (name : String) (v : PyVal) : Slots :=
  match slots with
  | [] => [(name, v)]
  | (k, w) :: rest =>
    if k = name then (k, v) :: rest else (k, w) :: setSlot rest name v

/-- `kwargs.pop(name)`: remove the entry bound to `name` (first occurrence)
and return its value, or fail. -/
def popKw (kwargs : List (String × PyVal)) (name : String) :
    Option (PyVal × List (String × PyVal)) :=
  match kwargs with
  | [] => Option.none
  | (k, v) :: rest =>
    if k = name then some (v, rest)
    else
      match popKw rest name with
      | some (v', rest') => some (v', (k, v) :: rest')
      | Option.none => Option.none

/-- A per-field hook table (`_fdeco` or `_fco`): a word-keyed dictionary of
functions.  `hookApply` is `table.get(name, lambda n: n)(v)`. -/
abbrev HookTable := List (String × (PyVal → PyVal))

def hookApply (table : HookTable) (name : String) (v : PyVal) : PyVal :=
  match table.find? (fun p => p.1 = name) with
  | some p => p.2 v
  | Option.none => v

/-- Errors raised by the register framework. -/
inductive MErr where
  /-- Python `TypeError`, with the message of the `raise`. -/
  | typeError (msg : String)
  /-- Python `AttributeError` (reported attribute name). -/
  | attributeError (name : String)
  /-- `errors.NotStandardError`. -/
  | notStandard (msg : String)
  /-- An exception raised by a wrapped `insert`/`remove`/`get` body. -/
  | bodyErr (k : DBKind)
  deriving DecidableEq, Repr

/-- First loop of `_Register.__init__`: positional arguments are popped and
matched against fields in declaration order until either runs out.  Returns
the updated slots, the remaining fields and the remaining arguments. -/
def initPositional (fdeco : HookTable) :
    List String → List PyVal → Slots → Slots × List String × List PyVal
  | fields, [], slots => (slots, fields, [])
  | [], args, slots => (slots, [], args)
  | f :: fs, a :: args, slots =>
      initPositional fdeco fs args (setSlot slots f (hookApply fdeco f a))

/-- Second loop of `_Register.__init__`: each remaining field is popped from
the keyword arguments; a missing keyword raises
`TypeError("'{name}' necesita valor.")`.  Returns the updated slots and the
remaining keyword arguments. -/
def initKeyword (fdeco : HookTable) :
    List String → List (String × PyVal) → Slots →
    Except MErr (Slots × List (String × PyVal))
  | [], kwargs, slots => .ok (slots, kwargs)
  | f :: fs, kwargs, slots =>
    match popKw kwargs f with
    | Option.none => .error (.typeError (f ++ " necesita valor."))
    | some (v, kwargs') =>
        initKeyword fdeco fs kwargs' (setSlot slots f (hookApply fdeco f v))

/-- `_Register.__init__(self, *args, **kwargs)`: positional loop, keyword
loop, then the surplus checks (`kwargs` first, `args` second). -/
def registerInit (fdeco : HookTable) (fields : List String)
    (args : List PyVal) (kwargs : List (String × PyVal)) :
    Except MErr Slots :=
  let (slots, fs, argsRest) := initPositional fdeco fields args []
  match initKeyword fdeco fs kwargs slots with
  | .error e => .error e
  | .ok (slots, kwRest) =>
    match kwRest.getLast? with
    | some (k, _) => .error (.typeError (k ++ ": parámetro desconocido"))
    | Option.none =>
      match argsRest with
      | _ :: _ => .error (.typeError "Demasiados argumentos")
      | [] => .ok slots

/-- `_Register.__iter__` on a non-abstract class: yield, for each field in
declaration order, the slot value passed through the `_fco` hook.  (A slot
is always present on an instance the constructor accepted.) -/
def registerIter (fco : HookTable) (fields : List String) (slots : Slots) :
    List PyVal :=
  fields.map (fun n => hookApply fco n ((lookupSlot slots n).getD PyVal.none))

/-! ### `RegisterMeta.__new__`: parsing the `_fields` declaration -/

/-- Python `str.split()` over the characters: split on runs of whitespace,
discarding empty words (the declarations in this repository separate words
with single spaces). -/
def splitWordsAux : List Char → List Char → List String
  | [], acc => if acc.isEmpty then [] else [String.mk acc.reverse]
  | c :: cs, acc =>
    if c = ' ' then
      if acc.isEmpty then splitWordsAux cs []
      else String.mk acc.reverse :: splitWordsAux cs []
    else splitWordsAux cs (c :: acc)

def pySplit (s : String) : List String :=
  splitWordsAux s.data []

/-- Python `attr.endswith("*")`. -/
def endsWithStar (w : String) : Bool :=
  match w.data.getLast? with
  | some c => c = '*'
  | Option.none => false

/-- Python `attr[:-1]`. -/
def dropStar (w : String) : String :=
  String.mk w.data.dropLast

/-- The loop over the declared words: a trailing `*` marks the (stripped)
name as a primary key; `_fields` keeps every stripped name in order and
`_pkfields` the primary keys in order. -/
def splitFields : List String → List String × List String
  | [] => ([], [])
  | w :: ws =>
    let (fds, pks) := splitFields ws
    if endsWithStar w then ((dropStar w) :: fds, (dropStar w) :: pks)
    else (w :: fds, pks)

/-- `_fields`/`_pkfields` as computed by `RegisterMeta.__new__` from the
declaration string. -/
def parseFields (spec : String) : List String × List String :=
  splitFields (pySplit spec)

/-! ### Classes and instances -/

/-- A `Register` class: its computed `_fields` and `_pkfields`, its name and
its `_db` class attribute.  `_db = Option.none` models the attribute being
absent (a class never bound by `attach`); `some x` models `_db = x`. -/
structure RClass where
  fields : List String
  pkfields : List String
  name : String
  db : Option (Option Nat)
  deriving DecidableEq, Repr

/-- The connector-bound subclass created by `attach`:
`type(class_)(class_.__name__, (class_,), {"_db": self})`. -/
def boundOf (cls : RClass) (connId : Nat) : RClass :=
  { cls with db := some (some connId) }

structure RInst where
  cls : RClass
  slots : Slots
  attachedFlag : Bool
  deriving DecidableEq, Repr

/-- The metaclass property `attached` (`return cls._db is not None`): reading
`cls._db` on a class that never received the attribute raises
`AttributeError`. -/
def attachedCheck (cls : RClass) : Except MErr Bool :=
  match cls.db with
  | Option.none => .error (.attributeError "_db")
  | some v => .ok v.isSome

/-- The metaclass property `db`, which swallows the `AttributeError` and
returns `None` for an unbound class. -/
def clsDb (cls : RClass) : Option Nat :=
  match cls.db with
  | some (some i) => some i
  | _ => Option.none

/-- Truthiness of `Register.stored`
(`return self._attached and type(self).db`). -/
def storedB (self : RInst) : Bool :=
  self.attachedFlag && (clsDb self.cls).isSome

/-- `getattr(self, name)` through the synthesized default property, which
reads the private slot (defaulting is irrelevant here: every instance the
constructor accepted carries all its slots). -/
def RInst.getProp (self : RInst) (name : String) : PyVal :=
  (lookupSlot self.slots name).getD PyVal.none

/-- `Register._set_id(self, id)`: with a single primary key whose current
value is `None`, write `id` into its slot; return the (possibly updated) key
value.  With a composite (or empty) primary key, return the tuple of current
key values unchanged. -/
def set_id (self : RInst) (idv : PyVal) : RInst × KeyRet :=
  match self.cls.pkfields with
  | [nameId] =>
    let self' :=
      if self.getProp nameId = PyVal.none then
        { self with slots := setSlot self.slots nameId idv }
      else self
    (self', .single (self'.getProp nameId))
  | pks => (self, .tup (pks.map self.getProp))

/-- `RegisterMeta.dbassoc` wrapping `insert`: check `type(self).attached`,
set `self._attached = True`, run the body; on any exception from the body
set `self._attached = False` and re-raise; on success feed the body's return
value through `_set_id`. -/
def insertWrapped (self : RInst) (body : Except MErr PyVal) :
    RInst × Except MErr KeyRet :=
  match attachedCheck self.cls with
  | .error e => (self, .error e)
  | .ok false => (self, .error (.notStandard "Clase no registrada en el conector."))
  | .ok true =>
    let self1 : RInst := { self with attachedFlag := true }
    match body with
    | .error e => ({ self1 with attachedFlag := false }, .error e)
    | .ok res =>
      let (self2, ret) := set_id self1 res
      (self2, .ok ret)

/-- `RegisterMeta.dbdissoc` wrapping `remove`: return `False` without
running the body when the instance is not stored; otherwise run the body,
and only when it returns normally mark the instance detached and return
`True`. -/
def removeWrapped (self : RInst) (body : Except MErr Unit) :
    RInst × Except MErr Bool :=
  if storedB self = false then (self, .ok false)
  else
    match body with
    | .error e => (self, .error e)
    | .ok _ => ({ self with attachedFlag := false }, .ok true)

/-! ### `RegisterMeta.makeobj`: the wrapped `get` -/

/-- The generator returned by the wrapped `get`: the class the instances
will be constructed from (the class `makeobj` was closed over) and the raw
rows not yet consumed. -/
structure GetGen where
  cls : RClass
  pending : List (List PyVal)
  deriving Repr

/-- `cls(*reg, attached=True)`: run the constructor on the raw row (no
keyword field values, default hooks handled by the caller's `fdeco`). -/
def makeInst (fdeco : HookTable) (cls : RClass) (reg : List PyVal) :
    Except MErr RInst :=
  match registerInit fdeco cls.fields reg [] with
  | .error e => .error e
  | .ok slots => .ok { cls := cls, slots := slots, attachedFlag := true }

/-- One `next()` on the generator: exhausted, or construct an attached
instance from the next raw row.  (A row of the wrong arity makes the
constructor raise, which the generator propagates.) -/
def GetGen.next (fdeco : HookTable) :
    GetGen → Option (Except MErr RInst × GetGen)
  | ⟨_, []⟩ => Option.none
  | ⟨c, r :: rs⟩ => some (makeInst fdeco c r, ⟨c, rs⟩)

/-- The wrapped `get` produced by `RegisterMeta.makeobj(fget, cls)`: check
that the class is attached (the check the generator performs before its
first yield), then yield one constructed instance per raw row produced by
the underlying body `fget` (here: the list of raw rows it yields). -/
def getWrapped (cls : RClass) (rows : List (List PyVal)) :
    Except MErr GetGen :=
  match attachedCheck cls with
  | .error e => .error e
  | .ok false => .error (.notStandard "Clase no registrada en el conector.")
  | .ok true => .ok ⟨cls, rows⟩

/-! ## Helper definitions and lemmas -/

/-- Folding `setSlot` over a list of already-decoded pairs; both loops of
`_Register.__init__` reduce to this. -/
def applyPairs (slots : Slots) (ps : List (String × PyVal)) : Slots :=
  ps.foldl (fun s p => setSlot s p.1 p.2) slots

theorem applyPairs_cons (slots : Slots) (n : String) (v : PyVal)
    (ps : List (String × PyVal)) :
    applyPairs slots ((n, v) :: ps) = applyPairs (setSlot slots n v) ps := rfl

theorem hookApply_nil (n : String) (v : PyVal) : hookApply [] n v = v := rfl

theorem lookupSlot_cons_self (n : String) (v : PyVal) (rest : Slots) :
    lookupSlot ((n, v) :: rest) n = some v := by
  simp [lookupSlot]

theorem lookupSlot_cons_of_ne (m n : String) (v : PyVal) (rest : Slots)
    (h : m ≠ n) : lookupSlot ((n, v) :: rest) m = lookupSlot rest m := by
  simp [lookupSlot, List.find?_cons, Ne.symm h]

theorem lookupSlot_setSlot_self : ∀ (slots : Slots) (n : String) (v : PyVal),
    lookupSlot (setSlot slots n v) n = some v := by
  intro slots n v
  induction slots with
  | nil => simp [setSlot, lookupSlot]
  | cons p rest ih =>
    obtain ⟨k, w⟩ := p
    by_cases hk : k = n
    · subst hk; simp [setSlot, lookupSlot]
    · simpa [setSlot, hk, lookupSlot_cons_of_ne n k v _ (fun h => hk h.symm),
        lookupSlot_cons_of_ne n k w _ (fun h => hk h.symm)] using ih

theorem setSlot_of_notMem : ∀ (slots : Slots) (n : String) (v : PyVal),
    n ∉ slots.map Prod.fst → setSlot slots n v = slots ++ [(n, v)] := by
  intro slots n v h
  induction slots with
  | nil => rfl
  | cons p rest ih =>
    obtain ⟨k, w⟩ := p
    simp only [List.map_cons, List.mem_cons, not_or] at h
    have hkn : ¬ (k = n) := fun hkn => h.1 hkn.symm
    simp only [setSlot, if_neg hkn, List.cons_append, List.cons.injEq, true_and]
    exact ih h.2

theorem applyPairs_of_fresh :
    ∀ (ps : List (String × PyVal)) (slots : Slots),
      (ps.map Prod.fst).Nodup →
      (∀ x ∈ ps.map Prod.fst, x ∉ slots.map Prod.fst) →
      applyPairs slots ps = slots ++ ps := by
  intro ps
  induction ps with
  | nil => intro slots _ _; simp [applyPairs]
  | cons p rest ih =>
    intro slots hnd hdis
    obtain ⟨n, v⟩ := p
    rw [List.map_cons] at hnd
    obtain ⟨hn, hrest⟩ := List.nodup_cons.mp hnd
    rw [applyPairs_cons, setSlot_of_notMem _ _ _ (hdis n (by simp)),
        ih (slots ++ [(n, v)]) hrest ?_]
    · simp
    · intro x hx
      simp only [List.map_append, List.map_cons, List.map_nil, List.mem_append,
        List.mem_singleton, not_or]
      exact ⟨hdis x (by simp [hx]), fun hxn => hn (hxn ▸ hx)⟩

theorem initPositional_eq (fdeco : HookTable) :
    ∀ (fields : List String) (args : List PyVal) (slots : Slots),
      initPositional fdeco fields args slots
        = (applyPairs slots
             (List.zipWith (fun f a => (f, hookApply fdeco f a)) fields args),
           fields.drop args.length, args.drop fields.length) := by
  intro fields
  induction fields with
  | nil => intro args slots; cases args <;> simp [initPositional, applyPairs]
  | cons f fs ih =>
    intro args slots
    cases args with
    | nil => simp [initPositional, applyPairs]
    | cons a as => simp [initPositional, ih, applyPairs_cons]

theorem popKw_of_perm :
    ∀ (kw l : List (String × PyVal)) (f : String) (w : PyVal),
      kw.Perm ((f, w) :: l) → (∀ v, (f, v) ∉ l) →
      ∃ kw', popKw kw f = some (w, kw') ∧ kw'.Perm l := by
  intro kw
  induction kw with
  | nil =>
    intro l f w hp _
    exact absurd hp.length_eq (by simp)
  | cons p rest ih =>
    intro l f w hp hf
    obtain ⟨k, v⟩ := p
    by_cases hk : k = f
    · subst hk
      have hmem : (k, v) ∈ (k, w) :: l := hp.mem_iff.mp (List.mem_cons_self _ _)
      have hvw : v = w := by
        rcases List.mem_cons.mp hmem with h | h
        · simpa using congrArg Prod.snd h
        · exact absurd h (hf v)
      subst hvw
      exact ⟨rest, by simp [popKw], hp.cons_inv⟩
    · have hmem : (k, v) ∈ (f, w) :: l := hp.mem_iff.mp (List.mem_cons_self _ _)
      have hkl : (k, v) ∈ l := by
        rcases List.mem_cons.mp hmem with h | h
        · exact absurd (congrArg Prod.fst h) hk
        · exact h
      obtain ⟨s, t, rfl⟩ := List.append_of_mem hkl
      have hperm_l : (s ++ (k, v) :: t).Perm ((k, v) :: (s ++ t)) :=
        List.perm_middle
      have hp2 : rest.Perm ((f, w) :: (s ++ t)) := by
        have hstep : ((k, v) :: rest).Perm ((k, v) :: (f, w) :: (s ++ t)) :=
          hp.trans ((hperm_l.cons (f, w)).trans (List.Perm.swap (k, v) (f, w) _))
        exact hstep.cons_inv
      have hf2 : ∀ u, (f, u) ∉ s ++ t := by
        intro u hu
        refine hf u ?_
        rcases List.mem_append.mp hu with h | h
        · exact List.mem_append.mpr (Or.inl h)
        · exact List.mem_append.mpr (Or.inr (List.mem_cons_of_mem _ h))
      obtain ⟨kw', hpop, hkw'⟩ := ih (s ++ t) f w hp2 hf2
      refine ⟨(k, v) :: kw', ?_, ?_⟩
      · simp [popKw, hk, hpop]
      · exact (hkw'.cons (k, v)).trans hperm_l.symm

theorem initKeyword_perm (fdeco : HookTable) :
    ∀ (fs : List String) (ws : List PyVal) (kw : List (String × PyVal))
      (slots : Slots),
      fs.Nodup → fs.length = ws.length → kw.Perm (fs.zip ws) →
      initKeyword fdeco fs kw slots
        = .ok (applyPairs slots
                 (List.zipWith (fun f w => (f, hookApply fdeco f w)) fs ws),
               []) := by
  intro fs
  induction fs with
  | nil =>
    intro ws kw slots _ _ hp
    have hkw : kw = [] := hp.eq_nil
    simp [initKeyword, hkw, applyPairs]
  | cons f fs ih =>
    intro ws kw slots hnd hlen hp
    cases ws with
    | nil => simp at hlen
    | cons w ws' =>
      have hf : ∀ v, (f, v) ∉ fs.zip ws' := by
        intro v hv
        exact (List.nodup_cons.mp hnd).1 (List.of_mem_zip hv).1
      obtain ⟨kw', hpop, hkw'⟩ :=
        popKw_of_perm kw (fs.zip ws') f w (by simpa using hp) hf
      simp only [initKeyword, hpop]
      rw [ih ws' kw' _ (List.nodup_cons.mp hnd).2 (by simpa using hlen) hkw']
      rfl

theorem zipWith_pair_take_right (g : String → PyVal → PyVal) :
    ∀ (l1 : List String) (l2 : List PyVal) (k : Nat),
      List.zipWith (fun f a => (f, g f a)) l1 (l2.take k)
        = List.zipWith (fun f a => (f, g f a)) (l1.take k) (l2.take k) := by
  intro l1
  induction l1 with
  | nil => intros; simp
  | cons a l1 ih =>
    intro l2 k
    cases l2 with
    | nil => simp
    | cons b l2 =>
      cases k with
      | zero => simp
      | succ k => simp [ih]

theorem zipWith_pair_take_drop (g : String → PyVal → PyVal) :
    ∀ (k : Nat) (l1 : List String) (l2 : List PyVal),
      l1.length = l2.length →
      List.zipWith (fun f a => (f, g f a)) (l1.take k) (l2.take k)
          ++ List.zipWith (fun f a => (f, g f a)) (l1.drop k) (l2.drop k)
        = List.zipWith (fun f a => (f, g f a)) l1 l2 := by
  intro k
  induction k with
  | zero => intros; simp
  | succ k ih =>
    intro l1 l2 hlen
    cases l1 with
    | nil => simp
    | cons a l1 =>
      cases l2 with
      | nil => simp at hlen
      | cons b l2 => simp [ih l1 l2 (by simpa using hlen)]

theorem map_fst_zipWith_pair (g : String → PyVal → PyVal) :
    ∀ (l1 : List String) (l2 : List PyVal),
      (List.zipWith (fun f a => (f, g f a)) l1 l2).map Prod.fst
        = l1.take l2.length := by
  intro l1
  induction l1 with
  | nil => intros; simp
  | cons a l1 ih =>
    intro l2
    cases l2 with
    | nil => simp
    | cons b l2 => simp [ih]

/-- Full characterization of a successful construction: `k` leading values
are passed positionally, the rest as keyword arguments in any order.  The
resulting slots bind each field, in declared order, to its decoded value. -/
theorem registerInit_success (fdeco : HookTable) (fields : List String)
    (vals : List PyVal) (k : Nat) (kw : List (String × PyVal))
    (hnd : fields.Nodup) (hlen : vals.length = fields.length)
    (hk : k ≤ fields.length)
    (hkw : kw.Perm ((fields.drop k).zip (vals.drop k))) :
    registerInit fdeco fields (vals.take k) kw
      = .ok (List.zipWith (fun f v => (f, hookApply fdeco f v)) fields vals) := by
  have hkv : k ≤ vals.length := hlen ▸ hk
  have hL1 : (vals.take k).length = k := by
    simp [List.length_take, Nat.min_eq_left hkv]
  have hdropLen : (fields.drop k).length = (vals.drop k).length := by
    simp [List.length_drop, hlen]
  have hzip : List.zipWith (fun f a => (f, hookApply fdeco f a)) fields (vals.take k)
      = List.zipWith (fun f a => (f, hookApply fdeco f a)) (fields.take k) (vals.take k) :=
    zipWith_pair_take_right _ fields vals k
  have hA : ((List.zipWith (fun f a => (f, hookApply fdeco f a)) (fields.take k)
      (vals.take k)).map Prod.fst) = fields.take k := by
    rw [map_fst_zipWith_pair]
    have : k ≤ (vals.take k).length := by omega
    rw [hL1, List.take_take, Nat.min_self]
  have hB : ((List.zipWith (fun f a => (f, hookApply fdeco f a)) (fields.drop k)
      (vals.drop k)).map Prod.fst) = fields.drop k := by
    rw [map_fst_zipWith_pair]
    have h1 : (vals.drop k).length = (fields.drop k).length := hdropLen.symm
    rw [h1, List.take_length]
  have hndA : (fields.take k).Nodup := hnd.sublist (List.take_sublist k fields)
  have hndB : (fields.drop k).Nodup := hnd.sublist (List.drop_sublist k fields)
  have hdisj : ∀ x ∈ fields.drop k, x ∉ fields.take k := by
    intro x hx
    have hnd2 : (fields.take k ++ fields.drop k).Nodup := by
      rw [List.take_append_drop]; exact hnd
    exact fun hx2 => (List.disjoint_of_nodup_append hnd2) hx2 hx
  have hargsRest : (vals.take k).drop fields.length = [] :=
    List.drop_eq_nil_of_le (le_trans (le_of_eq hL1) hk)
  have hfs : fields.drop (vals.take k).length = fields.drop k := by rw [hL1]
  have hfirst : applyPairs []
      (List.zipWith (fun f a => (f, hookApply fdeco f a)) fields (vals.take k))
      = List.zipWith (fun f a => (f, hookApply fdeco f a)) (fields.take k)
          (vals.take k) := by
    rw [hzip, applyPairs_of_fresh _ [] (by rw [hA]; exact hndA) (by simp),
      List.nil_append]
  have hsecond : applyPairs
      (List.zipWith (fun f a => (f, hookApply fdeco f a)) (fields.take k)
        (vals.take k))
      (List.zipWith (fun f a => (f, hookApply fdeco f a)) (fields.drop k)
        (vals.drop k))
      = List.zipWith (fun f v => (f, hookApply fdeco f v)) fields vals := by
    rw [applyPairs_of_fresh _ _ (by rw [hB]; exact hndB) ?_]
    · exact zipWith_pair_take_drop _ k fields vals hlen.symm
    · intro x hx
      rw [hB] at hx
      rw [hA]
      exact hdisj x hx
  simp only [registerInit, initPositional_eq, hfs, hargsRest]
  rw [hfirst,
    initKeyword_perm fdeco (fields.drop k) (vals.drop k) kw _ hndB hdropLen hkw]
  simp [hsecond]


theorem txExit_transaction (db : TxConn) (exc : Bool) :
    ((txExit db exc).1).transaction = db.transaction - 1 := by
  cases exc <;> cases hL : db.hasLogger <;>
    simp [txExit, stringIOTruthy, hL] <;> split <;> simp_all

theorem txExit_counts_inner (db : TxConn) (exc : Bool) (h : db.transaction ≠ 1) :
    ((txExit db exc).1).commits = db.commits
    ∧ ((txExit db exc).1).rollbacks = db.rollbacks := by
  have h0 : ¬ (db.transaction - 1 = 0) := by omega
  cases exc <;> simp [txExit, stringIOTruthy, h0]

theorem txExit_commit (db : TxConn) (h : db.transaction = 1) :
    ((txExit db false).1).commits = db.commits + 1
    ∧ ((txExit db false).1).rollbacks = db.rollbacks := by
  have h0 : db.transaction - 1 = 0 := by omega
  cases hL : db.hasLogger <;> simp [txExit, stringIOTruthy, h0, hL]

theorem txExit_rollback (db : TxConn) (h : db.transaction = 1) :
    ((txExit db true).1).rollbacks = db.rollbacks + 1
    ∧ ((txExit db true).1).commits = db.commits := by
  have h0 : db.transaction - 1 = 0 := by omega
  simp [txExit, stringIOTruthy, h0]

theorem txRun_transaction : ∀ (ops : List TxOp) (db : TxConn),
    (txRun ops db).transaction
      = db.transaction + (countEnters ops : Int) - (countExits ops : Int) := by
  intro ops
  induction ops with
  | nil => intro db; simp [txRun, countEnters, countExits]
  | cons op rest ih =>
    intro db
    cases op with
    | enter =>
      have : txRun (TxOp.enter :: rest) db = txRun rest (txEnter db) := rfl
      rw [this, ih]
      simp [txEnter, countEnters, countExits, List.filter]
      omega
    | exit exc =>
      have : txRun (TxOp.exit exc :: rest) db = txRun rest (txExit db exc).1 := rfl
      rw [this, ih, txExit_transaction]
      simp [countEnters, countExits, List.filter]
      omega

theorem registerIter_zip (fco : HookTable) :
    ∀ (fields : List String) (vals : List PyVal), fields.Nodup →
      vals.length = fields.length →
      registerIter fco fields (fields.zip vals)
        = List.zipWith (fun f v => hookApply fco f v) fields vals := by
  intro fields
  induction fields with
  | nil =>
    intro vals _ hlen
    have hv : vals = [] := List.length_eq_zero.mp (by simpa using hlen)
    simp [registerIter, hv]
  | cons f fs ih =>
    intro vals hnd hlen
    cases vals with
    | nil => simp at hlen
    | cons v vs =>
      obtain ⟨hf, hfs⟩ := List.nodup_cons.mp hnd
      have hlen' : vs.length = fs.length := by simpa using hlen
      show hookApply fco f ((lookupSlot ((f, v) :: fs.zip vs) f).getD PyVal.none)
          :: fs.map (fun n => hookApply fco n
               ((lookupSlot ((f, v) :: fs.zip vs) n).getD PyVal.none))
        = hookApply fco f v :: List.zipWith (fun f v => hookApply fco f v) fs vs
      rw [lookupSlot_cons_self, Option.getD_some, List.cons.injEq]
      refine ⟨rfl, ?_⟩
      rw [List.map_congr_left (g := fun n => hookApply fco n
            ((lookupSlot (fs.zip vs) n).getD PyVal.none))
          (fun n hn => by
            rw [lookupSlot_cons_of_ne n f v _ (fun hnf => hf (hnf ▸ hn))])]
      exact ih vs hfs hlen'

theorem registerInit_missing (fdeco : HookTable) (fields : List String)
    (args : List PyVal) (h : args.length < fields.length) :
    ∃ f, registerInit fdeco fields args []
      = .error (.typeError (f ++ " necesita valor.")) := by
  cases hfs : fields.drop args.length with
  | nil =>
    exfalso
    have hl := congrArg List.length hfs
    simp [List.length_drop] at hl
    omega
  | cons f fs' =>
    refine ⟨f, ?_⟩
    simp [registerInit, initPositional_eq, hfs, initKeyword, popKw]

theorem registerInit_surplus (fdeco : HookTable) (fields : List String)
    (args : List PyVal) (h : fields.length < args.length) :
    registerInit fdeco fields args []
      = .error (.typeError "Demasiados argumentos") := by
  have hfs : fields.drop args.length = [] :=
    List.drop_eq_nil_of_le (le_of_lt h)
  cases har : args.drop fields.length with
  | nil =>
    exfalso
    have hl := congrArg List.length har
    simp [List.length_drop] at hl
    omega
  | cons a rest =>
    simp [registerInit, initPositional_eq, hfs, har, initKeyword]

theorem registerInit_unknown (fdeco : HookTable) (fields : List String)
    (args : List PyVal) (kwr : List (String × PyVal)) (k0 : String) (v0 : PyVal)
    (h : args.length = fields.length) :
    registerInit fdeco fields args (kwr ++ [(k0, v0)])
      = .error (.typeError (k0 ++ ": parámetro desconocido")) := by
  have hfs : fields.drop args.length = [] :=
    List.drop_eq_nil_of_le (le_of_eq h.symm)
  have har : args.drop fields.length = [] :=
    List.drop_eq_nil_of_le (le_of_eq h)
  simp [registerInit, initPositional_eq, hfs, har, initKeyword,
    List.getLast?_concat]

/-! ## Claims -/

/-- C1: transaction scopes nest reentrantly: entering a scope increments the
transaction-depth counter and exiting decrements it; only the exit that
returns the counter to 0 performs the physical commit (no exception pending)
or rollback (exception pending); an exception raised inside an inner scope
results in a rollback at the outer scope's exit; after every balanced
sequence of enters/exits the depth counter is back where it started (so back
to 0 when starting from 0). -/
theorem claim_C1 :
    (∀ db : TxConn, (txEnter db).transaction = db.transaction + 1)
    ∧ (∀ (db : TxConn) (exc : Bool),
        ((txExit db exc).1).transaction = db.transaction - 1)
    ∧ (∀ (db : TxConn) (exc : Bool), db.transaction ≠ 1 →
        ((txExit db exc).1).commits = db.commits
        ∧ ((txExit db exc).1).rollbacks = db.rollbacks)
    ∧ (∀ db : TxConn, db.transaction = 1 →
        ((txExit db false).1).commits = db.commits + 1
        ∧ ((txExit db false).1).rollbacks = db.rollbacks
        ∧ ((txExit db true).1).rollbacks = db.rollbacks + 1
        ∧ ((txExit db true).1).commits = db.commits)
    ∧ (txRun [.enter, .enter, .exit true, .exit true]
          ⟨0, 0, 0, "", true, []⟩ = ⟨0, 0, 1, "", true, []⟩)
    ∧ (∀ (ops : List TxOp) (db : TxConn), countEnters ops = countExits ops →
        (txRun ops db).transaction = db.transaction) := by
  refine ⟨fun db => rfl, txExit_transaction, txExit_counts_inner,
          fun db h => ⟨(txExit_commit db h).1, (txExit_commit db h).2,
                       (txExit_rollback db h).1, (txExit_rollback db h).2⟩,
          rfl, fun ops db h => ?_⟩
  rw [txRun_transaction, h]
  omega

/-- Witness for C1 at concrete inputs. -/
theorem claim_C1_witness :
    (txEnter ⟨0, 0, 0, "", true, []⟩).transaction = 1
    ∧ ((2 : Int) ≠ 1
        ∧ ((txExit ⟨2, 0, 0, "", true, []⟩ true).1).commits = 0
        ∧ ((txExit ⟨2, 0, 0, "", true, []⟩ true).1).rollbacks = 0)
    ∧ ((1 : Int) = 1
        ∧ ((txExit ⟨1, 4, 5, "", true, []⟩ false).1).commits = 5
        ∧ ((txExit ⟨1, 4, 5, "", true, []⟩ true).1).rollbacks = 6)
    ∧ (countEnters [.enter, .exit false] = countExits [.enter, .exit false]
        ∧ (txRun [.enter, .exit false] ⟨0, 0, 0, "", true, []⟩).transaction = 0) := by
  obtain ⟨h1, _, h3, h4, _, h6⟩ := claim_C1
  refine ⟨h1 _, ⟨by decide, ?_, ?_⟩, ⟨rfl, ?_, ?_⟩, by decide, h6 _ _ (by decide)⟩
  · exact (h3 ⟨2, 0, 0, "", true, []⟩ true (by decide)).1
  · exact (h3 ⟨2, 0, 0, "", true, []⟩ true (by decide)).2
  · exact (h4 ⟨1, 4, 5, "", true, []⟩ rfl).1
  · exact (h4 ⟨1, 4, 5, "", true, []⟩ rfl).2.2.1

/-- C2: a cursor-scoped operation invoked with transaction-depth 0 raises
`TransactionError` and performs no backend call: the connector state is
returned unchanged (no cursor acquired from the connection, cursor stack
untouched), whatever the body. -/
theorem claim_C2 (db : CConn) {α : Type} (body : BodyOutcome α)
    (h : db.transaction = 0) :
    manage_cursor db body
      = (db, .error ⟨.TransactionError, none, none⟩) := by
  simp [manage_cursor, session_opened, h]

/-- Witness for C2. -/
theorem claim_C2_witness :
    (⟨0, [3], 5, [2]⟩ : CConn).transaction = 0
    ∧ manage_cursor (⟨0, [3], 5, [2]⟩ : CConn) (BodyOutcome.ok (PyVal.int 1))
      = ((⟨0, [3], 5, [2]⟩ : CConn),
         .error ⟨.TransactionError, none, none⟩) :=
  ⟨rfl, claim_C2 _ _ rfl⟩

/-- C5: a native backend exception raised inside a cursor-scoped operation
propagates as the taxonomy member whose class name equals the native
exception's class name (`NotStandardError` when none matches), with its
cause suppressed and the original traceback preserved, and the cursor opened
for the operation is still popped (the stack is restored) and closed. -/
theorem claim_C5 (db : CConn) (e : NativeExc) (h : 0 < db.transaction) :
    manage_cursor db (BodyOutcome.nativeErr e : BodyOutcome Unit)
      = ({ db with nextCursor := db.nextCursor + 1,
                   closedCursors := db.closedCursors ++ [db.nextCursor] },
         .error ⟨lookupTax e.name, none, some e.tb⟩)
    ∧ ((∃ k ∈ taxonomy, k.className = e.name) →
        (lookupTax e.name).className = e.name)
    ∧ ((∀ k ∈ taxonomy, k.className ≠ e.name) →
        lookupTax e.name = DBKind.NotStandardError) := by
  refine ⟨?_, ?_, ?_⟩
  · simp [manage_cursor, session_opened, h, List.dropLast_concat]
  · rintro ⟨k, hk, hname⟩
    have hsome : (taxonomy.find? (fun k => k.className = e.name)).isSome :=
      List.find?_isSome.mpr ⟨k, hk, by simp [hname]⟩
    obtain ⟨k', hk'⟩ := Option.isSome_iff_exists.mp hsome
    have hprop := List.find?_some hk'
    simp only [decide_eq_true_eq] at hprop
    simp [lookupTax, hk', hprop]
  · intro hall
    have hnone : taxonomy.find? (fun k => k.className = e.name) = none :=
      List.find?_eq_none.mpr (fun k hk => by simp [hall k hk])
    simp [lookupTax, hnone]

/-- Witness for C5. -/
theorem claim_C5_witness :
    (0 : Int) < (⟨1, [], 0, []⟩ : CConn).transaction
    ∧ manage_cursor (⟨1, [], 0, []⟩ : CConn)
        (BodyOutcome.nativeErr ⟨"IntegrityError", 9⟩ : BodyOutcome Unit)
      = ((⟨1, [], 1, [0]⟩ : CConn),
         .error ⟨DBKind.IntegrityError, none, some 9⟩) := by
  have h := claim_C5 (⟨1, [], 0, []⟩ : CConn) ⟨"IntegrityError", 9⟩ (by decide)
  exact ⟨by decide, by rw [h.1]; rfl⟩

/-- C8 as stated is false: `attach` adds the connector-bound subclass to the
connector's `_attached` set before checking for the name collision, so a
failed `attach` does change the connector's attachment state. -/
theorem claim_C8_counterexample :
    (attach ⟨7, [("X", Option.none)], []⟩ [⟨"X", Option.none⟩]).2 = some "X"
    ∧ (attach ⟨7, [("X", Option.none)], []⟩ [⟨"X", Option.none⟩]).1.attachedSet
        ≠ (⟨7, [("X", Option.none)], []⟩ : AConn).attachedSet := by
  refine ⟨rfl, ?_⟩
  simp [attach, attachOne]

/-- C8 amended: attaching a class whose name collides with an existing
connector attribute raises the naming-conflict error and leaves the
attribute namespace unchanged (every previously attached class is still
bound under its name), but the connector-bound subclass of the rejected
class has already been added to the `_attached` set. -/
theorem claim_C8_amended (db : AConn) (c : ModelClass)
    (h : db.attrs.any (fun p => p.1 = c.name) = true) :
    attach db [c]
      = ({ db with attachedSet := db.attachedSet ++ [⟨c.name, some db.connId⟩] },
         some c.name) := by
  simp [attach, attachOne, h]

/-- Witness for the amended C8. -/
theorem claim_C8_amended_witness :
    ((⟨7, [("X", Option.none)], []⟩ : AConn).attrs.any
        (fun p => p.1 = "X") = true)
    ∧ attach ⟨7, [("X", Option.none)], []⟩ [⟨"X", Option.none⟩]
      = (⟨7, [("X", Option.none)], [⟨"X", some 7⟩]⟩, some "X") := by
  have h := claim_C8_amended ⟨7, [("X", Option.none)], []⟩ ⟨"X", Option.none⟩
    (by decide)
  exact ⟨by decide, by rw [h]; rfl⟩

/-- C9 is the claim the code slips on: `if self.db._buffer:` tests the
truthiness of the `StringIO` object, which is always `True`, so at a
depth-0 exit with no exception pending the connector always calls
`self.db.logger(...)`: with no logger sink configured this evaluates
`None(...)` and raises `TypeError` right after the commit (leaving the
buffer uncleared), and with a sink configured it flushes even an empty
buffer. -/
theorem claim_C9_code_eval :
    txExit ⟨1, 0, 0, "X;", false, []⟩ false
      = (⟨0, 1, 0, "X;", false, []⟩, some .typeErrorNoneNotCallable)
    ∧ txExit ⟨1, 0, 0, "", true, []⟩ false
      = (⟨0, 1, 0, "", true, [""]⟩, none)
    ∧ txExit ⟨1, 0, 0, "X;", true, []⟩ true
      = (⟨0, 0, 1, "", true, []⟩, none) := ⟨rfl, rfl, rfl⟩

/-- C10: if the body of the wrapped `remove` raises, the exception
propagates and the instance is unchanged (still attached, stored state
intact); the instance is marked detached with `True` returned exactly when
the body completes without raising; `remove` on a non-stored instance
returns `False` without running the body. -/
theorem claim_C10 (self : RInst) (body : Except MErr Unit) (e : MErr) :
    (storedB self = true →
        removeWrapped self (.error e) = (self, .error e))
    ∧ (storedB self = true →
        removeWrapped self (.ok ()) = ({ self with attachedFlag := false }, .ok true))
    ∧ (storedB self = false → removeWrapped self body = (self, .ok false)) := by
  refine ⟨?_, ?_, ?_⟩ <;> intro h <;> simp [removeWrapped, h]

/-- Witness for C10. -/
theorem claim_C10_witness :
    storedB ⟨⟨["id"], ["id"], "C", some (some 0)⟩, [("id", PyVal.int 1)], true⟩ = true
    ∧ removeWrapped ⟨⟨["id"], ["id"], "C", some (some 0)⟩, [("id", PyVal.int 1)], true⟩
        (.error (.bodyErr .IntegrityError))
      = (⟨⟨["id"], ["id"], "C", some (some 0)⟩, [("id", PyVal.int 1)], true⟩,
         .error (.bodyErr .IntegrityError))
    ∧ removeWrapped ⟨⟨["id"], ["id"], "C", some (some 0)⟩, [("id", PyVal.int 1)], true⟩
        (.ok ())
      = (⟨⟨["id"], ["id"], "C", some (some 0)⟩, [("id", PyVal.int 1)], false⟩, .ok true)
    ∧ storedB ⟨⟨["id"], ["id"], "C", Option.none⟩, [("id", PyVal.int 1)], true⟩ = false
    ∧ removeWrapped ⟨⟨["id"], ["id"], "C", Option.none⟩, [("id", PyVal.int 1)], true⟩
        (.ok ())
      = (⟨⟨["id"], ["id"], "C", Option.none⟩, [("id", PyVal.int 1)], true⟩, .ok false) := by
  have h1 := claim_C10 ⟨⟨["id"], ["id"], "C", some (some 0)⟩, [("id", PyVal.int 1)], true⟩
    (.ok ()) (.bodyErr .IntegrityError)
  have h2 := claim_C10 ⟨⟨["id"], ["id"], "C", Option.none⟩, [("id", PyVal.int 1)], true⟩
    (.ok ()) (.bodyErr .IntegrityError)
  exact ⟨rfl, h1.1 rfl, h1.2.1 rfl, rfl, h2.2.2 rfl⟩

/-- C7 as stated is false: on a `Register` class that was never bound to a
connector, `remove` does not raise `NotStandardError` at all -- the
`stored` check is falsy, so it returns `False` -- and `insert` raises
`AttributeError` (reading the absent `_db` class attribute inside the
`attached` check), not `NotStandardError`. -/
theorem claim_C7_counterexample :
    removeWrapped ⟨⟨["id", "nombre"], ["id"], "Cliente", Option.none⟩,
        [("id", PyVal.none), ("nombre", PyVal.str "Acme")], false⟩ (.ok ())
      = (⟨⟨["id", "nombre"], ["id"], "Cliente", Option.none⟩,
          [("id", PyVal.none), ("nombre", PyVal.str "Acme")], false⟩, .ok false)
    ∧ (insertWrapped ⟨⟨["id", "nombre"], ["id"], "Cliente", Option.none⟩,
          [("id", PyVal.none), ("nombre", PyVal.str "Acme")], false⟩
        (.ok (PyVal.int 7))).2
      = .error (.attributeError "_db") := ⟨rfl, rfl⟩

/-- C7 amended: on a `Register` class never bound to a connector, `insert`
and `get` fail before any backend operation -- with `AttributeError` for the
absent `_db` attribute, not `NotStandardError` -- and `remove` returns
`False` without performing any backend operation. -/
theorem claim_C7_amended (self : RInst) (rows : List (List PyVal))
    (bodyI : Except MErr PyVal) (bodyR : Except MErr Unit)
    (h : self.cls.db = Option.none) :
    insertWrapped self bodyI = (self, .error (.attributeError "_db"))
    ∧ getWrapped self.cls rows = .error (.attributeError "_db")
    ∧ removeWrapped self bodyR = (self, .ok false) := by
  refine ⟨?_, ?_, ?_⟩
  · simp [insertWrapped, attachedCheck, h]
  · simp [getWrapped, attachedCheck, h]
  · simp [removeWrapped, storedB, clsDb, h]

/-- Witness for the amended C7. -/
theorem claim_C7_amended_witness :
    (⟨⟨["id"], ["id"], "Cliente", Option.none⟩, [("id", PyVal.none)], false⟩
        : RInst).cls.db = Option.none
    ∧ insertWrapped ⟨⟨["id"], ["id"], "Cliente", Option.none⟩,
          [("id", PyVal.none)], false⟩ (.ok (PyVal.int 7))
      = (⟨⟨["id"], ["id"], "Cliente", Option.none⟩, [("id", PyVal.none)], false⟩,
         .error (.attributeError "_db"))
    ∧ getWrapped ⟨["id"], ["id"], "Cliente", Option.none⟩ [[PyVal.int 1]]
      = .error (.attributeError "_db")
    ∧ removeWrapped ⟨⟨["id"], ["id"], "Cliente", Option.none⟩,
          [("id", PyVal.none)], false⟩ (.ok ())
      = (⟨⟨["id"], ["id"], "Cliente", Option.none⟩, [("id", PyVal.none)], false⟩,
         .ok false) := by
  have h := claim_C7_amended
    ⟨⟨["id"], ["id"], "Cliente", Option.none⟩, [("id", PyVal.none)], false⟩
    [[PyVal.int 1]] (.ok (PyVal.int 7)) (.ok ()) rfl
  exact ⟨rfl, h.1, h.2.1, h.2.2⟩

/-- C3: constructing a record with exactly `N` values -- `k` of them
positional, consumed left-to-right, the rest supplied as keyword arguments
in any order -- succeeds (decode hooks at their default identity), and
iterating the instance yields exactly those `N` values in declared field
order, each passed through the field's encode hook; fewer values than
declared fields with no matching keyword raises `TypeError`, as does any
surplus positional value or unrecognized keyword. -/
theorem claim_C3 :
    (∀ (fco : HookTable) (fields : List String) (vals : List PyVal) (k : Nat)
        (kw : List (String × PyVal)),
      fields.Nodup → vals.length = fields.length → k ≤ fields.length →
      kw.Perm ((fields.drop k).zip (vals.drop k)) →
      registerInit [] fields (vals.take k) kw = .ok (fields.zip vals)
      ∧ registerIter fco fields (fields.zip vals)
          = List.zipWith (fun f v => hookApply fco f v) fields vals)
    ∧ (∀ (fields : List String) (args : List PyVal),
        args.length < fields.length →
        ∃ f, registerInit [] fields args []
          = .error (.typeError (f ++ " necesita valor.")))
    ∧ (∀ (fields : List String) (args : List PyVal),
        fields.length < args.length →
        registerInit [] fields args []
          = .error (.typeError "Demasiados argumentos"))
    ∧ (∀ (fields : List String) (args : List PyVal)
        (kwr : List (String × PyVal)) (k0 : String) (v0 : PyVal),
        args.length = fields.length →
        registerInit [] fields args (kwr ++ [(k0, v0)])
          = .error (.typeError (k0 ++ ": parámetro desconocido"))) := by
  refine ⟨fun fco fields vals k kw hnd hlen hk hkw => ⟨?_, ?_⟩,
    fun fields args h => registerInit_missing [] fields args h,
    fun fields args h => registerInit_surplus [] fields args h,
    fun fields args kwr k0 v0 h => registerInit_unknown [] fields args kwr k0 v0 h⟩
  · exact registerInit_success [] fields vals k kw hnd hlen hk hkw
  · exact registerIter_zip fco fields vals hnd hlen

/-- Witness for C3: two declared fields, one positional value and one
keyword value; then each failure mode at a concrete input. -/
theorem claim_C3_witness :
    ((["id", "nombre"] : List String).Nodup
      ∧ registerInit [] ["id", "nombre"] [PyVal.none]
          [("nombre", PyVal.str "Acme")]
          = .ok [("id", PyVal.none), ("nombre", PyVal.str "Acme")]
      ∧ registerIter [] ["id", "nombre"]
          [("id", PyVal.none), ("nombre", PyVal.str "Acme")]
          = [PyVal.none, PyVal.str "Acme"])
    ∧ ((1 : Nat) < 2
      ∧ ∃ f, registerInit [] ["id", "nombre"] [PyVal.none] []
          = .error (.typeError (f ++ " necesita valor.")))
    ∧ registerInit [] ["id", "nombre"] [PyVal.none, PyVal.str "A", PyVal.int 3] []
        = .error (.typeError "Demasiados argumentos")
    ∧ registerInit [] ["id", "nombre"] [PyVal.none, PyVal.str "A"]
        ([] ++ [("x", PyVal.int 1)])
        = .error (.typeError ("x" ++ ": parámetro desconocido")) := by
  obtain ⟨h1, h2, h3, h4⟩ := claim_C3
  have hs := h1 [] ["id", "nombre"] [PyVal.none, PyVal.str "Acme"] 1
    [("nombre", PyVal.str "Acme")] (by decide) rfl (by decide) (List.Perm.refl _)
  exact ⟨⟨by decide, hs.1, hs.2⟩,
    ⟨by decide, h2 ["id", "nombre"] [PyVal.none] (by decide)⟩,
    h3 ["id", "nombre"] [PyVal.none, PyVal.str "A", PyVal.int 3] (by decide),
    h4 ["id", "nombre"] [PyVal.none, PyVal.str "A"] [] "x" (PyVal.int 1) rfl⟩

/-- C4: after a successful insert on an instance whose declaration has a
single primary-key field currently `None`, the generated key is written back
into that field (it reads back as the key, and `stored` is truthy) and
`insert` returns the key; with a composite primary key, `insert` returns
the tuple of the instance's current key values with no write-back.  The
concrete scenario: fields `"id* nombre"`, constructed with
`(None, "Acme")`: `id` reads `None` before insert and `7` after an insert
whose body returns `7`. -/
theorem claim_C4 :
    (∀ (self : RInst) (i : Nat) (p : String) (K : PyVal),
        self.cls.db = some (some i) → self.cls.pkfields = [p] →
        self.getProp p = PyVal.none →
        insertWrapped self (.ok K)
          = ({ self with
                attachedFlag := true,
                slots := setSlot self.slots p K }, .ok (.single K))
        ∧ ({ self with
              attachedFlag := true,
              slots := setSlot self.slots p K } : RInst).getProp p = K
        ∧ storedB { self with
              attachedFlag := true,
              slots := setSlot self.slots p K } = true)
    ∧ (∀ (self : RInst) (i : Nat) (K : PyVal),
        self.cls.db = some (some i) → self.cls.pkfields.length ≠ 1 →
        insertWrapped self (.ok K)
          = ({ self with attachedFlag := true },
             .ok (.tup (self.cls.pkfields.map self.getProp))))
    ∧ (parseFields "id* nombre" = (["id", "nombre"], ["id"])
      ∧ registerInit [] ["id", "nombre"] [PyVal.none, PyVal.str "Acme"] []
          = .ok [("id", PyVal.none), ("nombre", PyVal.str "Acme")]
      ∧ (⟨⟨["id", "nombre"], ["id"], "Cliente", some (some 0)⟩,
            [("id", PyVal.none), ("nombre", PyVal.str "Acme")], false⟩
            : RInst).getProp "id" = PyVal.none
      ∧ insertWrapped ⟨⟨["id", "nombre"], ["id"], "Cliente", some (some 0)⟩,
            [("id", PyVal.none), ("nombre", PyVal.str "Acme")], false⟩
            (.ok (PyVal.int 7))
          = (⟨⟨["id", "nombre"], ["id"], "Cliente", some (some 0)⟩,
              [("id", PyVal.int 7), ("nombre", PyVal.str "Acme")], true⟩,
             .ok (.single (PyVal.int 7)))
      ∧ storedB ⟨⟨["id", "nombre"], ["id"], "Cliente", some (some 0)⟩,
            [("id", PyVal.int 7), ("nombre", PyVal.str "Acme")], true⟩ = true) := by
  refine ⟨?_, ?_, rfl, rfl, rfl, rfl, rfl⟩
  · intro self i p K hdb hpk hnone
    obtain ⟨⟨flds, pks, nm, db⟩, slots, flag⟩ := self
    change db = some (some i) at hdb
    change pks = [p] at hpk
    change (lookupSlot slots p).getD PyVal.none = PyVal.none at hnone
    subst hdb
    subst hpk
    refine ⟨?_, ?_, rfl⟩
    · simp [insertWrapped, attachedCheck, set_id, RInst.getProp, hnone,
        lookupSlot_setSlot_self]
    · simp [RInst.getProp, lookupSlot_setSlot_self]
  · intro self i K hdb hlen
    obtain ⟨⟨flds, pks, nm, db⟩, slots, flag⟩ := self
    change db = some (some i) at hdb
    subst hdb
    cases pks with
    | nil => simp [insertWrapped, attachedCheck, set_id, RInst.getProp]
    | cons p1 rest =>
      cases rest with
      | nil => exact absurd rfl hlen
      | cons p2 rest2 =>
        simp [insertWrapped, attachedCheck, set_id, RInst.getProp]

/-- Witness for C4: the single-key scenario of the spec and a composite-key
insert on a quote record. -/
theorem claim_C4_witness :
    insertWrapped ⟨⟨["id", "nombre"], ["id"], "Cliente", some (some 0)⟩,
        [("id", PyVal.none), ("nombre", PyVal.str "Acme")], false⟩
        (.ok (PyVal.int 7))
      = (⟨⟨["id", "nombre"], ["id"], "Cliente", some (some 0)⟩,
          [("id", PyVal.int 7), ("nombre", PyVal.str "Acme")], true⟩,
         .ok (.single (PyVal.int 7)))
    ∧ (⟨⟨["id", "nombre"], ["id"], "Cliente", some (some 0)⟩,
          [("id", PyVal.int 7), ("nombre", PyVal.str "Acme")], true⟩
          : RInst).getProp "id" = PyVal.int 7
    ∧ (["isin", "fecha"] : List String).length ≠ 1
    ∧ insertWrapped ⟨⟨["isin", "fecha", "vl"], ["isin", "fecha"], "Cotizacion",
          some (some 1)⟩,
          [("isin", PyVal.str "ES1"), ("fecha", PyVal.str "2020-01-01"),
           ("vl", PyVal.int 100)], false⟩ (.ok (PyVal.int 5))
      = (⟨⟨["isin", "fecha", "vl"], ["isin", "fecha"], "Cotizacion",
            some (some 1)⟩,
          [("isin", PyVal.str "ES1"), ("fecha", PyVal.str "2020-01-01"),
           ("vl", PyVal.int 100)], true⟩,
         .ok (.tup [PyVal.str "ES1", PyVal.str "2020-01-01"])) := by
  obtain ⟨h1, h2, _⟩ := claim_C4
  have ha := h1 ⟨⟨["id", "nombre"], ["id"], "Cliente", some (some 0)⟩,
      [("id", PyVal.none), ("nombre", PyVal.str "Acme")], false⟩ 0 "id"
      (PyVal.int 7) rfl rfl rfl
  have hb := h2 ⟨⟨["isin", "fecha", "vl"], ["isin", "fecha"], "Cotizacion",
      some (some 1)⟩,
      [("isin", PyVal.str "ES1"), ("fecha", PyVal.str "2020-01-01"),
       ("vl", PyVal.int 100)], false⟩ 1 (PyVal.int 5) rfl (by decide)
  exact ⟨ha.1, ha.2.1, by decide, hb⟩

/-- C6: on a class bound to a connector, `get` produces a generator over the
raw rows of the underlying body: each `next` constructs one fully built
instance per raw row, already attached (`attached=True`) and belonging to
the connector-bound subclass (which differs from the original declared
class); the sequence is finite (one element per row) and not restartable
(an exhausted generator stays exhausted). -/
theorem claim_C6 (cls : RClass) (connId : Nat) (fdeco : HookTable)
    (rows : List (List PyVal)) (r : List PyVal) (rs : List (List PyVal)) :
    getWrapped (boundOf cls connId) rows = .ok ⟨boundOf cls connId, rows⟩
    ∧ GetGen.next fdeco ⟨boundOf cls connId, r :: rs⟩
        = some (makeInst fdeco (boundOf cls connId) r, ⟨boundOf cls connId, rs⟩)
    ∧ GetGen.next fdeco (⟨boundOf cls connId, []⟩ : GetGen) = Option.none
    ∧ (cls.db = Option.none → boundOf cls connId ≠ cls)
    ∧ (r.length = cls.fields.length → cls.fields.Nodup →
        makeInst fdeco (boundOf cls connId) r
          = .ok ⟨boundOf cls connId,
                 List.zipWith (fun f v => (f, hookApply fdeco f v)) cls.fields r,
                 true⟩) := by
  refine ⟨?_, rfl, rfl, ?_, ?_⟩
  · simp [getWrapped, attachedCheck, boundOf]
  · intro h heq
    have hdb := congrArg RClass.db heq
    simp [boundOf, h] at hdb
  · intro h1 h2
    have hsucc := registerInit_success fdeco cls.fields r cls.fields.length []
      h2 h1 (le_refl _)
      (by rw [List.drop_eq_nil_of_le (le_refl cls.fields.length)]; simp)
    rw [← h1, List.take_length] at hsucc
    simp only [makeInst, boundOf]
    rw [hsucc]

/-- Witness for C6. -/
theorem claim_C6_witness :
    getWrapped (boundOf ⟨["id", "nombre"], ["id"], "Cliente", Option.none⟩ 3)
        [[PyVal.int 1, PyVal.str "A"], [PyVal.int 2, PyVal.str "B"]]
      = .ok ⟨⟨["id", "nombre"], ["id"], "Cliente", some (some 3)⟩,
             [[PyVal.int 1, PyVal.str "A"], [PyVal.int 2, PyVal.str "B"]]⟩
    ∧ GetGen.next [] ⟨boundOf ⟨["id", "nombre"], ["id"], "Cliente", Option.none⟩ 3,
          [[PyVal.int 1, PyVal.str "A"], [PyVal.int 2, PyVal.str "B"]]⟩
      = some (.ok ⟨⟨["id", "nombre"], ["id"], "Cliente", some (some 3)⟩,
                [("id", PyVal.int 1), ("nombre", PyVal.str "A")], true⟩,
              ⟨⟨["id", "nombre"], ["id"], "Cliente", some (some 3)⟩,
                [[PyVal.int 2, PyVal.str "B"]]⟩)
    ∧ GetGen.next []
        (⟨boundOf ⟨["id", "nombre"], ["id"], "Cliente", Option.none⟩ 3, []⟩
          : GetGen)
      = Option.none
    ∧ (⟨["id", "nombre"], ["id"], "Cliente", Option.none⟩ : RClass).db
        = Option.none
    ∧ boundOf ⟨["id", "nombre"], ["id"], "Cliente", Option.none⟩ 3
        ≠ ⟨["id", "nombre"], ["id"], "Cliente", Option.none⟩
    ∧ ([PyVal.int 1, PyVal.str "A"] : List PyVal).length
        = (["id", "nombre"] : List String).length
    ∧ makeInst [] (boundOf ⟨["id", "nombre"], ["id"], "Cliente", Option.none⟩ 3)
        [PyVal.int 1, PyVal.str "A"]
      = .ok ⟨⟨["id", "nombre"], ["id"], "Cliente", some (some 3)⟩,
             [("id", PyVal.int 1), ("nombre", PyVal.str "A")], true⟩ := by
  have h := claim_C6 ⟨["id", "nombre"], ["id"], "Cliente", Option.none⟩ 3 []
    [[PyVal.int 1, PyVal.str "A"], [PyVal.int 2, PyVal.str "B"]]
    [PyVal.int 1, PyVal.str "A"] [[PyVal.int 2, PyVal.str "B"]]
  refine ⟨h.1, ?_, h.2.2.1, rfl, h.2.2.2.1 rfl, rfl, ?_⟩
  · rw [h.2.1, h.2.2.2.2 rfl (by decide)]
    rfl
  · exact h.2.2.2.2 rfl (by decide)

end Fondos
